import Mathlib

/-!
Shallow embedding of the enforcement engine of the `killer` repository
(license-verification agent): the HMAC-SHA256 signature engine
(src/verification/hmac.rs), the verification client's response handling and
URL construction (src/verification/network.rs), the kill-method parser
(src/config/schema.rs), the kill engine (src/security/kill_parent.rs), the
secure-deletion primitive (src/security/destruct.rs), and the main
verification loop (src/main.rs).

Rust strings are modelled as `List Char` (their character sequences), byte
strings (`&[u8]`, `Vec<u8>`) as `List Nat` with every element `< 256`, and
machine words as `Nat` reduced `% 2^32` (or `% 256`) exactly where the Rust
types wrap.
-/

namespace Killer


/-! ## Signature Engine (src/verification/hmac.rs)

`create_signature` is HMAC-SHA256 (crates `hmac` + `sha2`) followed by
lowercase hex encoding (crate `hex`); `verify_signature` recomputes the
signature and compares with `subtle::ConstantTimeEq::ct_eq`.  The SHA-256
compression function, padding and HMAC key schedule are embedded in full;
32-bit words are `Nat` values taken `% 2^32` wherever the source wraps. -/

/-- 2^32, the modulus of the 32-bit words used by SHA-256. -/
def M32 : Nat := 4294967296

/-- 32-bit wrapping addition. -/
def add32 (a b : Nat) : Nat := (a + b) % M32

/-- 32-bit right rotation by `n` (0 ≤ n < 32 in all uses). -/
def rotr32 (n x : Nat) : Nat := ((x >>> n) ||| (x <<< (32 - n))) % M32

/-- SHA-256 Σ₀. -/
def bigSigma0 (x : Nat) : Nat := (rotr32 2 x) ^^^ (rotr32 13 x) ^^^ (rotr32 22 x)

/-- SHA-256 Σ₁. -/
def bigSigma1 (x : Nat) : Nat := (rotr32 6 x) ^^^ (rotr32 11 x) ^^^ (rotr32 25 x)

/-- SHA-256 σ₀. -/
def smallSigma0 (x : Nat) : Nat := (rotr32 7 x) ^^^ (rotr32 18 x) ^^^ (x >>> 3)

/-- SHA-256 σ₁. -/
def smallSigma1 (x : Nat) : Nat := (rotr32 17 x) ^^^ (rotr32 19 x) ^^^ (x >>> 10)

/-- SHA-256 Ch; 32-bit complement is xor with 2^32 - 1. -/
def chF (x y z : Nat) : Nat := (x &&& y) ^^^ ((x ^^^ 4294967295) &&& z)

/-- SHA-256 Maj. -/
def majF (x y z : Nat) : Nat := (x &&& y) ^^^ (x &&& z) ^^^ (y &&& z)

/-- The 64 SHA-256 round constants (FIPS 180-4, in decimal). -/
def K256 : List Nat :=
  [1116352408, 1899447441, 3049323471, 3921009573, 961987163, 1508970993,
   2453635748, 2870763221, 3624381080, 310598401, 607225278, 1426881987,
   1925078388, 2162078206, 2614888103, 3248222580, 3835390401, 4022224774,
   264347078, 604807628, 770255983, 1249150122, 1555081692, 1996064986,
   2554220882, 2821834349, 2952996808, 3210313671, 3336571891, 3584528711,
   113926993, 338241895, 666307205, 773529912, 1294757372, 1396182291,
   1695183700, 1986661051, 2177026350, 2456956037, 2730485921, 2820302411,
   3259730800, 3345764771, 3516065817, 3600352804, 4094571909, 275423344,
   430227734, 506948616, 659060556, 883997877, 958139571, 1322822218,
   1537002063, 1747873779, 1955562222, 2024104815, 2227730452, 2361852424,
   2428436474, 2756734187, 3204031479, 3329325298]

/-- The SHA-256 initial hash value (FIPS 180-4, in decimal). -/
def H256init : List Nat :=
  [1779033703, 3144134277, 1013904242, 2773480762,
   1359893119, 2600822924, 528734635, 1541459225]

/-- Number of zero bytes in the SHA-256 padding of a message of `len` bytes. -/
def padZeroCount (len : Nat) : Nat := (119 - (len % 64)) % 64

/-- The message length in bits as 8 big-endian bytes. -/
def lengthBytesBE (len : Nat) : List Nat :=
  let bits := len * 8
  [(bits >>> 56) % 256, (bits >>> 48) % 256, (bits >>> 40) % 256, (bits >>> 32) % 256,
   (bits >>> 24) % 256, (bits >>> 16) % 256, (bits >>> 8) % 256, bits % 256]

/-- SHA-256 padding: append 0x80, zero bytes, and the bit length. -/
def sha256Pad (msg : List Nat) : List Nat :=
  msg ++ 128 :: List.replicate (padZeroCount msg.length) 0 ++ lengthBytesBE msg.length

/-- Split a byte list into 64-byte blocks (fuel-indexed to keep the recursion
structural; the fuel is always at least the number of blocks). -/
def chunk64F : Nat → List Nat → List (List Nat)
  | 0, _ => []
  | _, [] => []
  | fuel + 1, l => l.take 64 :: chunk64F fuel (l.drop 64)

/-- Split a byte list into 64-byte blocks. -/
def chunk64 (l : List Nat) : List (List Nat) := chunk64F l.length l

/-- The first 16 words (big-endian) of a 64-byte block. -/
def wordsOfBlock (block : List Nat) : List Nat :=
  (List.range 16).map (fun i =>
    ((block.getD (4 * i) 0) <<< 24) + ((block.getD (4 * i + 1) 0) <<< 16) +
    ((block.getD (4 * i + 2) 0) <<< 8) + block.getD (4 * i + 3) 0)

/-- Extend 16 words to the 64-word SHA-256 message schedule. -/
def extendW (ws : List Nat) : List Nat :=
  (List.range 48).foldl (fun acc _ =>
    acc ++ [add32 (add32 (smallSigma1 (acc.getD (acc.length - 2) 0)) (acc.getD (acc.length - 7) 0))
            (add32 (smallSigma0 (acc.getD (acc.length - 15) 0)) (acc.getD (acc.length - 16) 0))]) ws

/-- The eight SHA-256 working variables. -/
structure Hash8 where
  a : Nat
  b : Nat
  c : Nat
  d : Nat
  e : Nat
  f : Nat
  g : Nat
  h : Nat

/-- One SHA-256 compression round; `kw` is the pair (round constant, schedule word). -/
def compressStep (st : Hash8) (kw : Nat × Nat) : Hash8 :=
  let t1 := add32 st.h (add32 (bigSigma1 st.e) (add32 (chF st.e st.f st.g) (add32 kw.1 kw.2)))
  let t2 := add32 (bigSigma0 st.a) (majF st.a st.b st.c)
  ⟨add32 t1 t2, st.a, st.b, st.c, add32 st.d t1, st.e, st.f, st.g⟩

/-- Process one 64-byte block, updating the eight-word hash state. -/
def compressBlock (hs : List Nat) (block : List Nat) : List Nat :=
  let ws := extendW (wordsOfBlock block)
  let st0 : Hash8 := ⟨hs.getD 0 0, hs.getD 1 0, hs.getD 2 0, hs.getD 3 0,
                      hs.getD 4 0, hs.getD 5 0, hs.getD 6 0, hs.getD 7 0⟩
  let st := (K256.zip ws).foldl compressStep st0
  [add32 st.a (hs.getD 0 0), add32 st.b (hs.getD 1 0), add32 st.c (hs.getD 2 0),
   add32 st.d (hs.getD 3 0), add32 st.e (hs.getD 4 0), add32 st.f (hs.getD 5 0),
   add32 st.g (hs.getD 6 0), add32 st.h (hs.getD 7 0)]

/-- SHA-256 of a byte list, as a list of 32 bytes. -/
def sha256 (msg : List Nat) : List Nat :=
  let hs := (chunk64 (sha256Pad msg)).foldl compressBlock H256init
  hs.flatMap (fun w => [(w >>> 24) % 256, (w >>> 16) % 256, (w >>> 8) % 256, w % 256])

/-- HMAC-SHA256 (block size 64): keys longer than a block are first hashed,
then zero-padded; inner pad byte 0x36, outer pad byte 0x5c. -/
def hmacSha256 (key msg : List Nat) : List Nat :=
  let k0 := if key.length > 64 then sha256 key else key
  let kPad := k0 ++ List.replicate (64 - k0.length) 0
  let ipadKey := kPad.map (fun b => b ^^^ 54)
  let opadKey := kPad.map (fun b => b ^^^ 92)
  sha256 (opadKey ++ sha256 (ipadKey ++ msg))

/-- Lowercase hex digit of a value below 16, as an ASCII byte (crate `hex`). -/
def hexDigitVal (n : Nat) : Nat := if n < 10 then 48 + n else 87 + n

/-- Lowercase hex encoding of a byte list (crate `hex`). -/
def hexEncode (bs : List Nat) : List Nat :=
  bs.flatMap (fun b => [hexDigitVal ((b >>> 4) % 16), hexDigitVal (b % 16)])

/-- `create_signature` (src/verification/hmac.rs lines 15-20): HMAC-SHA256 of
the data under the secret, hex-encoded.  Rust `&str` arguments appear here as
their UTF-8 byte lists. -/
def create_signature (data secret : List Nat) : List Nat :=
  hexEncode (hmacSha256 secret data)

/-- `subtle`'s `u8::ct_eq`, unwrapped to 0/1: `x = a ^ b`,
`y = (x | x.wrapping_neg()) >> 7`, result `y ^ 1`. -/
def ctEqByteU8 (a b : Nat) : Nat :=
  let x := (a ^^^ b) % 256
  let y := (x ||| ((256 - x) % 256)) >>> 7
  y ^^^ 1

/-- `subtle`'s slice `ct_eq` converted to `bool`: `Choice(0)` when the lengths
differ, otherwise the conjunction (`&=`) of the byte-level comparisons. -/
def ct_eq_bytes (xs ys : List Nat) : Bool :=
  if xs.length = ys.length then
    ((xs.zip ys).foldl (fun acc p => acc &&& ctEqByteU8 p.1 p.2) 1) != 0
  else false

/-- `verify_signature` (src/verification/hmac.rs lines 31-37): recompute the
expected signature and compare in constant time. -/
def verify_signature (data secret signature : List Nat) : Bool :=
  ct_eq_bytes (create_signature data secret) signature

/-! ## Verification Client (src/verification/network.rs)

`verify_license` builds the endpoint URL, sends the signed request, and
interprets the transport result and response.  The transport outcome of the
blocking `send()` is supplied as an explicit input (`HttpResult`); the URL
construction of lines 64-70 is factored out as `buildVerifyUrl`.  Rust
`String`s are `List Char`. -/

/-- The response schema (`VerifyResponse`, src/verification/network.rs
lines 17-24). -/
structure VerifyResponse where
  authorized : Bool
  message : List Char
  expires_in : Option Int
  check_interval_ms : Option Nat
  kill_method : Option (List Char)
deriving DecidableEq

/-- Outcome of the HTTP send: a transport-level failure (DNS failure,
connection refused, timeout) or a response, carrying its status code and —
for the 200 path — the parse result of its JSON body. -/
inductive HttpResult where
  | transportFailure (err : List Char)
  | response (status : Nat) (body : Except (List Char) VerifyResponse)

/-- The fixed API path suffix. -/
def apiPath : List Char := "/api/v1/verify".data

/-- Rust `trim_end_matches('/')`: drop every trailing slash. -/
def trimEndSlashes (l : List Char) : List Char :=
  (l.reverse.dropWhile (fun c => c = '/')).reverse

/-- URL construction (src/verification/network.rs lines 64-70): trim trailing
slashes, then append `/api/v1/verify` unless it is already a suffix. -/
def buildVerifyUrl (server_url : List Char) : List Char :=
  let clean := trimEndSlashes server_url
  if apiPath.isSuffixOf clean then clean else clean ++ apiPath

/-- `verify_license` result handling (src/verification/network.rs lines
37-134).  On a transport failure: offline access with `authorized = true` when
`grace_period > 0`, otherwise the Err branch.  On a non-200 status: a generic
unauthorized outcome.  On 200: the body parse result, a parse failure becoming
the Err branch. -/
def verify_license (_license_id _server_url _shared_secret : List Char)
    (grace_period : Nat) (_first_check : Bool) (http : HttpResult) :
    Except (List Char) VerifyResponse :=
  match http with
  | .transportFailure e =>
    if grace_period > 0 then
      .ok ⟨true, "Offline access granted".data, none, none, none⟩
    else
      .error ("HTTP request failed: ".data ++ e)
  | .response status body =>
    if status ≠ 200 then
      .ok ⟨false, "HTTP error".data, none, none, none⟩
    else
      match body with
      | .error e => .error ("Failed to parse response: ".data ++ e)
      | .ok r => .ok r

/-- The three branches of the verification match in the main loop
(src/main.rs lines 84-155). -/
inductive LoopBranch where
  | authorizedBranch
  | unauthorizedBranch
  | networkErrorBranch
deriving DecidableEq

/-- Which branch of the main-loop match a verification result drives. -/
def loopBranchOf (r : Except (List Char) VerifyResponse) : LoopBranch :=
  match r with
  | .ok resp => if resp.authorized then .authorizedBranch else .unauthorizedBranch
  | .error _ => .networkErrorBranch

/-! ### URL construction (Claim C9) -/

/-- Number of positions at which `pat` occurs as a substring of `l`. -/
def countOccurrences (pat l : List Char) : Nat :=
  (List.range (l.length + 1)).countP (fun i => pat.isPrefixOf (l.drop i))

/-! ## Configuration schema (src/config/schema.rs) -/

/-- `KillMethod` (src/config/schema.rs lines 45-52). -/
inductive KillMethod where
  | stop
  | delete
  | shred
deriving DecidableEq

/-- Character-wise lowercasing.  On the ASCII range — which covers the three
keywords the source compares against — this coincides with Rust's
`str::to_lowercase`. -/
def toLowercase (s : List Char) : List Char :=
  s.map (fun c => if 'A' ≤ c ∧ c ≤ 'Z' then Char.ofNat (c.toNat + 32) else c)

/-- `KillMethod::from_str` (src/config/schema.rs lines 56-63): lowercase the
input and match it against the three keywords; anything else is `none`. -/
def KillMethod.from_str (s : List Char) : Option KillMethod :=
  if toLowercase s = "stop".data then some .stop
  else if toLowercase s = "delete".data then some .delete
  else if toLowercase s = "shred".data then some .shred
  else none

/-! ## Health Channel (src/utils/health_monitor.rs)

The shared-memory record and its field updates; the mapping itself (shm_open /
mmap) is outside the model, so a monitor is simply `Option HealthStatus`. -/

/-- The fixed-layout `HealthStatus` record (src/utils/health_monitor.rs
lines 7-14); i64/i32 fields as `Int`. -/
structure HealthStatus where
  last_success : Int
  consecutive_failures : Int
  is_alive : Int
  should_kill_base : Int
  parent_requests_kill : Int
deriving DecidableEq

/-- `HealthMonitor::heartbeat` (lines 147-153): set the liveness flag. -/
def healthHeartbeat (h : HealthStatus) : HealthStatus :=
  ⟨h.last_success, h.consecutive_failures, 1, h.should_kill_base, h.parent_requests_kill⟩

/-- `HealthMonitor::update` (lines 110-134): on success reset the failure
counter and stamp the time; on failure increment the counter; always set the
liveness flag. -/
def healthUpdate (h : HealthStatus) (now : Int) (success : Bool) : HealthStatus :=
  if success then ⟨now, 0, 1, h.should_kill_base, h.parent_requests_kill⟩
  else ⟨h.last_success, h.consecutive_failures + 1, 1, h.should_kill_base, h.parent_requests_kill⟩

/-- `HealthMonitor::request_kill_base` (lines 137-144). -/
def healthRequestKillBase (h : HealthStatus) : HealthStatus :=
  ⟨h.last_success, h.consecutive_failures, h.is_alive, 1, h.parent_requests_kill⟩

/-- `HealthMonitor::is_kill_requested` (lines 156-163). -/
def isKillRequested (h : HealthStatus) : Bool :=
  h.parent_requests_kill = 1

/-! ## Execution Controller: the main verification loop (src/main.rs)

One loop iteration is modelled as a function of the current `LoopState`, the
optional health record, and the iteration's verification result; it yields
the observable events of the iteration and either an exit code or the next
state.  `runLoop` drives the loop over a finite script of verification
results; an exhausted script with the loop still going is reported as `none`
(no exit). -/

/-- The mutable runtime policy of the loop (src/main.rs lines 57-59). -/
structure LoopState where
  first_check : Bool
  runtime_check_interval : Nat
  runtime_kill_method : KillMethod
deriving DecidableEq

/-- Observable actions of a loop iteration. -/
inductive LoopEvent where
  | heartbeat
  | killEngineInvoked (m : KillMethod)
  | healthUpdated (success : Bool)
  | killBaseRequested
  | slept (ms : Nat)
deriving DecidableEq

/-- Whether an event is an invocation of the Kill Engine. -/
def isKillEngineEvent : LoopEvent → Bool
  | .killEngineInvoked _ => true
  | _ => false

/-- Runtime patching of the authorized branch (src/main.rs lines 87-103):
adopt a differing interval override; adopt a kill-method override only when
`KillMethod::from_str` recognizes it. -/
def applyOverrides (resp : VerifyResponse) (s : LoopState) : LoopState :=
  let interval :=
    match resp.check_interval_ms with
    | some v => if v ≠ s.runtime_check_interval then v else s.runtime_check_interval
    | none => s.runtime_check_interval
  let method :=
    match resp.kill_method with
    | some str =>
      match KillMethod.from_str str with
      | some m => if m ≠ s.runtime_kill_method then m else s.runtime_kill_method
      | none => s.runtime_kill_method
    | none => s.runtime_kill_method
  ⟨s.first_check, interval, method⟩

/-- Result of one loop iteration: process exit or next loop state. -/
inductive IterResult where
  | exited (code : Nat)
  | looped (s : LoopState)
deriving DecidableEq

/-- Events, updated health record and result of one iteration. -/
structure IterOutcome where
  events : List LoopEvent
  health : Option HealthStatus
  result : IterResult

/-- The verification match of the loop body (src/main.rs lines 77-155). -/
def processVerification (s : LoopState) (h : Option HealthStatus) (now : Int)
    (vres : Except (List Char) VerifyResponse) : IterOutcome :=
  match vres with
  | .ok resp =>
    if resp.authorized then
      let s' := applyOverrides resp s
      let h' := h.map (fun hm => healthUpdate hm now true)
      let hevs : List LoopEvent := match h with
        | some _ => [.healthUpdated true]
        | none => []
      if s'.runtime_check_interval = 0 then
        ⟨hevs, h', .exited 0⟩
      else
        ⟨hevs ++ [.slept s'.runtime_check_interval], h',
         .looped ⟨false, s'.runtime_check_interval, s'.runtime_kill_method⟩⟩
    else
      let h' := h.map (fun hm => healthRequestKillBase (healthUpdate hm now false))
      let hevs : List LoopEvent := match h with
        | some _ => [.healthUpdated false, .killBaseRequested]
        | none => []
      ⟨hevs ++ [.killEngineInvoked s.runtime_kill_method], h', .exited 1⟩
  | .error _ =>
    let h' := h.map (fun hm => healthUpdate hm now false)
    let hevs : List LoopEvent := match h with
      | some _ => [.healthUpdated false]
      | none => []
    if s.runtime_check_interval = 0 then
      ⟨hevs, h', .exited 1⟩
    else
      ⟨hevs ++ [.slept s.runtime_check_interval], h',
       .looped ⟨false, s.runtime_check_interval, s.runtime_kill_method⟩⟩

/-- One full loop iteration (src/main.rs lines 61-155): heartbeat and
parent-kill check when a health monitor is attached, then verification. -/
def loopIteration (s : LoopState) (h : Option HealthStatus) (now : Int)
    (vres : Except (List Char) VerifyResponse) : IterOutcome :=
  match h with
  | some hm =>
    let hm1 := healthHeartbeat hm
    if isKillRequested hm1 then
      ⟨[.heartbeat, .killEngineInvoked s.runtime_kill_method], some hm1, .exited 0⟩
    else
      let out := processVerification s (some hm1) now vres
      ⟨.heartbeat :: out.events, out.health, out.result⟩
  | none => processVerification s none now vres

/-- Drive the loop over a finite script of verification results.  The third
component is the exit code, `none` when the script is exhausted with the loop
still running. -/
def runLoop (script : List (Except (List Char) VerifyResponse)) (s : LoopState)
    (h : Option HealthStatus) (now : Int) :
    List LoopEvent × Option HealthStatus × Option Nat :=
  match script with
  | [] => ([], h, none)
  | v :: rest =>
    match loopIteration s h now v with
    | ⟨evs, h', .exited c⟩ => (evs, h', some c)
    | ⟨evs, h', .looped s'⟩ =>
      let r := runLoop rest s' h' now
      (evs ++ r.1, r.2.1, r.2.2)

/-- A health record that has not been asked by the supervisor to kill:
the `parent_requests_kill` flag is not set. -/
def healthInert : Option HealthStatus → Prop
  | none => True
  | some hm => hm.parent_requests_kill ≠ 1

/-! ## Kill Engine (src/security/kill_parent.rs, unix branch)

The kill sequence is embedded as an event-trace semantics: signals, sleeps
and file operations are recorded in order, and the outside world — whether
the target survives SIGTERM, whether each file operation succeeds — enters
as an explicit fault-injection environment. -/

/-- Observable events of the kill sequence. -/
inductive KEvent where
  | sigterm (pid : Nat)
  | sleptMs (ms : Nat)
  | checkedAlive (pid : Nat) (alive : Bool)
  | sigkill (pid : Nat)
  | openedForWrite (path : List Char)
  | overwrotePass (path : List Char) (pattern : Nat)
  | synced (path : List Char)
  | unlinked (path : List Char)
deriving DecidableEq

/-- Fault-injection environment of the kill sequence. -/
structure KillEnv where
  alive_after_sigterm : Bool
  open_ok : Bool
  metadata_ok : Bool
  seek_ok : Nat → Bool
  write_ok : Nat → Bool
  sync_ok : Nat → Bool
  remove_ok : Bool

/-- `stop_parent` (src/security/kill_parent.rs lines 120-166, unix): SIGTERM,
100 ms wait, liveness re-check via /proc, SIGKILL if still alive.  The unix
branch always returns Ok. -/
def stop_parent (env : KillEnv) (ppid : Nat) : List KEvent × Except (List Char) Unit :=
  ([.sigterm ppid, .sleptMs 100, .checkedAlive ppid env.alive_after_sigterm]
     ++ (if env.alive_after_sigterm then [.sigkill ppid] else []),
   .ok ())

/-- `delete_parent` (lines 169-183): stop the process, 200 ms settle delay,
then unlink the binary; an unlink failure propagates as Err. -/
def delete_parent (env : KillEnv) (ppid : Nat) (path : List Char) :
    List KEvent × Except (List Char) Unit :=
  match stop_parent env ppid with
  | (evs, .error e) => (evs, .error e)
  | (evs, .ok _) =>
    (evs ++ [.sleptMs 200, .unlinked path],
     if env.remove_ok then .ok ()
     else .error "Failed to delete parent binary".data)

/-- The overwrite passes of `shred_parent` (lines 211-229): per pass seek to
the start (failure aborts before any write), write the pattern across the
file (a failure may leave a partial write, so the mutation is recorded before
the error), then sync; the first failing step propagates as Err via `?`. -/
def shredPasses (env : KillEnv) (path : List Char) :
    List (Nat × Nat) → List KEvent × Except (List Char) Unit
  | [] => ([], .ok ())
  | (i, pat) :: rest =>
    if env.seek_ok i then
      if env.write_ok i then
        if env.sync_ok i then
          match shredPasses env path rest with
          | (evs, r) => (.overwrotePass path pat :: .synced path :: evs, r)
        else ([.overwrotePass path pat], .error "Failed to sync".data)
      else ([.overwrotePass path pat], .error "Failed to write during shred".data)
    else ([], .error "Failed to seek".data)

/-- `shred_parent` (lines 186-240): stop the process, 200 ms settle delay,
open the binary for writing, read its size, 3-pass overwrite with patterns
0x00/0xFF/0xAA, then unlink; the first failure propagates as Err. -/
def shred_parent (env : KillEnv) (ppid : Nat) (path : List Char) :
    List KEvent × Except (List Char) Unit :=
  match stop_parent env ppid with
  | (evs, .error e) => (evs, .error e)
  | (evs, .ok _) =>
    if env.open_ok then
      if env.metadata_ok then
        match shredPasses env path [(0, 0x00), (1, 0xFF), (2, 0xAA)] with
        | (pevs, .error e) =>
          (evs ++ .sleptMs 200 :: .openedForWrite path :: pevs, .error e)
        | (pevs, .ok _) =>
          (evs ++ .sleptMs 200 :: .openedForWrite path :: pevs ++ [.unlinked path],
           if env.remove_ok then .ok ()
           else .error "Failed to delete shredded file".data)
      else (evs ++ [.sleptMs 200, .openedForWrite path],
            .error "Failed to get file metadata".data)
    else (evs ++ [.sleptMs 200],
          .error "Failed to open parent binary for shredding".data)

/-- The resolution environment of `execute_kill`: parent PID and parent
binary path lookups may fail. -/
structure KillWorld where
  parent_pid : Option Nat
  parent_binary_path : Option (List Char)
  env : KillEnv

/-- Result of `execute_kill`: a fatal `exit(code)` or normal completion. -/
inductive ExecOutcome where
  | fatalExit (code : Nat)
  | completed
deriving DecidableEq

/-- `execute_kill` (lines 243-285): resolve the parent PID (failure:
exit(1)); resolve the binary path (failure: still try to stop the process,
then exit(1)); run the configured method; on Err exit(1), else return. -/
def execute_kill (w : KillWorld) (kill_method : KillMethod) :
    List KEvent × ExecOutcome :=
  match w.parent_pid with
  | none => ([], .fatalExit 1)
  | some ppid =>
    match w.parent_binary_path with
    | none => ((stop_parent w.env ppid).1, .fatalExit 1)
    | some path =>
      match (match kill_method with
             | .stop => stop_parent w.env ppid
             | .delete => delete_parent w.env ppid path
             | .shred => shred_parent w.env ppid path) with
      | (evs, .error _) => (evs, .fatalExit 1)
      | (evs, .ok _) => (evs, .completed)

/-- Whether an event mutates the target's binary file. -/
def isFileMutationEvent : KEvent → Bool
  | .overwrotePass _ _ => true
  | .unlinked _ => true
  | _ => false

/-- A fault-free environment with the target still alive after SIGTERM. -/
def sampleKillEnv : KillEnv :=
  ⟨true, true, true, fun _ => true, fun _ => true, fun _ => true, true⟩

/-- An environment whose unlink fails (file already absent). -/
def noRemoveKillEnv : KillEnv :=
  ⟨false, true, true, fun _ => true, fun _ => true, fun _ => true, false⟩

/-- A fully resolved kill target. -/
def sampleKillWorld : KillWorld := ⟨some 7, some "p".data, sampleKillEnv⟩

/-! ## Secure Deletion Primitive (src/security/destruct.rs)

The file system is a duplicate-free list of existing paths; overwrite
failures are injected through an explicit environment.  `metadata` succeeds
exactly when the path exists. -/

/-- Observable events of a secure-deletion run. -/
inductive DEvent where
  | metadataQueried (path : List Char)
  | openedForWrite (path : List Char)
  | wroteRandomPass (path : List Char) (passNo : Nat)
  | flushed (path : List Char)
  | removeAttempted (path : List Char)
deriving DecidableEq

/-- Fault-injection environment of secure deletion (per-pass faults are
indexed by the pass number 1..3). -/
structure DestructEnv where
  open_ok : Bool
  seek_ok : Nat → Bool
  write_ok : Nat → Bool
  flush_ok : Nat → Bool
  remove_ok : Bool
  remove_config_ok : Bool

/-- `secure_delete_file` (src/security/destruct.rs lines 134-167): metadata
(early return if the file is gone), then — if the open succeeds — three
passes of seek/write/flush with every per-pass error ignored (`let _ =`),
then the unlink, attempted unconditionally and merely logged on failure. -/
def secure_delete_file (env : DestructEnv) (fs : List (List Char))
    (path : List Char) : List DEvent × List (List Char) :=
  if path ∈ fs then
    let passEvs : List DEvent :=
      if env.open_ok then
        .openedForWrite path ::
          ([1, 2, 3].flatMap (fun p =>
            if env.seek_ok p then [.wroteRandomPass path p, .flushed path]
            else []))
      else []
    (.metadataQueried path :: passEvs ++ [.removeAttempted path],
     if env.remove_ok then fs.erase path else fs)
  else
    ([.metadataQueried path], fs)

/-- `secure_delete_self`, unix branch (src/security/destruct.rs lines
14-76): like `secure_delete_file`, but a failing write skips that pass's
flush (`continue`), and after the binary's unlink the sibling `.config` file
is also removed; the process then exits 1.  The third component is the exit
code. -/
def secure_delete_self (env : DestructEnv) (fs : List (List Char))
    (exe_path : List Char) : List DEvent × List (List Char) × Nat :=
  if exe_path ∈ fs then
    let passEvs : List DEvent :=
      if env.open_ok then
        .openedForWrite exe_path ::
          ([1, 2, 3].flatMap (fun p =>
            if env.seek_ok p then
              .wroteRandomPass exe_path p ::
                (if env.write_ok p then [.flushed exe_path] else [])
            else []))
      else []
    let config_path := exe_path ++ ".config".data
    let fs1 := if env.remove_ok then fs.erase exe_path else fs
    let fs2 := if env.remove_config_ok then fs1.erase config_path else fs1
    (.metadataQueried exe_path ::
       passEvs ++ [.removeAttempted exe_path, .removeAttempted config_path],
     fs2, 1)
  else
    ([.metadataQueried exe_path], fs, 1)

/-! ## Theorems -/

/-! ### Lemmas about the constant-time comparison -/

/-- `u8::ct_eq` accepts equal bytes. -/
theorem ctEqByteU8_self (a : Nat) : ctEqByteU8 a a = 1 := by
  simp [ctEqByteU8, Nat.xor_self]

set_option maxRecDepth 2000 in
/-- A nonzero byte or its wrapping negation has the high bit set. -/
theorem or_neg_highbit : ∀ x < 256, 0 < x → ((x ||| ((256 - x) % 256)) >>> 7) = 1 := by
  decide

/-- `u8::ct_eq` rejects distinct bytes. -/
theorem ctEqByteU8_ne (a b : Nat) (ha : a < 256) (hb : b < 256) (hne : a ≠ b) :
    ctEqByteU8 a b = 0 := by
  have h8 : (256 : Nat) = 2 ^ 8 := by norm_num
  have hlt : a ^^^ b < 256 := by
    rw [h8] at ha hb ⊢
    exact Nat.xor_lt_two_pow ha hb
  have hmod : (a ^^^ b) % 256 = a ^^^ b := Nat.mod_eq_of_lt hlt
  have hpos : 0 < a ^^^ b :=
    Nat.pos_of_ne_zero (fun h => hne (Nat.xor_eq_zero.mp h))
  show ((((a ^^^ b) % 256) ||| ((256 - (a ^^^ b) % 256) % 256)) >>> 7) ^^^ 1 = 0
  rw [hmod, or_neg_highbit (a ^^^ b) hlt hpos]
  rfl

/-- The `&=` accumulator of the slice comparison stays 1 on equal lists. -/
theorem ct_fold_self (l : List Nat) :
    ((l.zip l).foldl (fun acc p => acc &&& ctEqByteU8 p.1 p.2) 1) = 1 := by
  induction l with
  | nil => rfl
  | cons a t ih =>
    simpa [List.zip_cons_cons, ctEqByteU8_self] using ih

/-- The `&=` accumulator never recovers from 0. -/
theorem ct_fold_zero (l : List (Nat × Nat)) :
    (l.foldl (fun acc p => acc &&& ctEqByteU8 p.1 p.2) 0) = 0 := by
  induction l with
  | nil => rfl
  | cons a t ih => simpa [Nat.zero_and] using ih

/-- If the slice comparison accumulator ends nonzero, the byte lists
(of equal length, all bytes below 256) are equal. -/
theorem ct_fold_eq (xs : List Nat) : ∀ ys : List Nat, xs.length = ys.length →
    (∀ x ∈ xs, x < 256) → (∀ y ∈ ys, y < 256) →
    ((xs.zip ys).foldl (fun acc p => acc &&& ctEqByteU8 p.1 p.2) 1) ≠ 0 → xs = ys := by
  induction xs with
  | nil =>
    intro ys hlen _ _ _
    cases ys with
    | nil => rfl
    | cons b u => simp at hlen
  | cons a t ih =>
    intro ys hlen hx hy hfold
    cases ys with
    | nil => simp at hlen
    | cons b u =>
      by_cases hab : a = b
      · subst hab
        have ht : t = u := by
          apply ih u
          · simpa using hlen
          · intro x hxm
            exact hx x (List.mem_cons_of_mem a hxm)
          · intro y hym
            exact hy y (List.mem_cons_of_mem a hym)
          · simpa [List.zip_cons_cons, ctEqByteU8_self] using hfold
        rw [ht]
      · exfalso
        apply hfold
        have hz : ctEqByteU8 a b = 0 :=
          ctEqByteU8_ne a b (hx a (List.mem_cons_self a t)) (hy b (List.mem_cons_self b u)) hab
        simpa [List.zip_cons_cons, hz, Nat.and_zero] using ct_fold_zero (t.zip u)

/-- `ct_eq` accepts a list against itself. -/
theorem ct_eq_bytes_self (l : List Nat) : ct_eq_bytes l l = true := by
  simp [ct_eq_bytes, ct_fold_self]

/-- `ct_eq` accepts only equal byte lists. -/
theorem ct_eq_bytes_eq (xs ys : List Nat) (hx : ∀ x ∈ xs, x < 256)
    (hy : ∀ y ∈ ys, y < 256) (h : ct_eq_bytes xs ys = true) : xs = ys := by
  unfold ct_eq_bytes at h
  by_cases hlen : xs.length = ys.length
  · rw [if_pos hlen] at h
    exact ct_fold_eq xs ys hlen hx hy (by simpa using h)
  · rw [if_neg hlen] at h
    exact absurd h (by simp)

/-- Hex digits are bytes. -/
theorem hexDigitVal_lt (n : Nat) (h : n < 16) : hexDigitVal n < 256 := by
  unfold hexDigitVal
  split <;> omega

/-- Every element of a hex encoding is a byte. -/
theorem hexEncode_lt (bs : List Nat) : ∀ b ∈ hexEncode bs, b < 256 := by
  intro b hb
  simp only [hexEncode, List.mem_flatMap, List.mem_cons, List.not_mem_nil, or_false] at hb
  obtain ⟨x, _, hmem⟩ := hb
  rcases hmem with h | h <;>
    exact h ▸ hexDigitVal_lt _ (Nat.mod_lt _ (by norm_num))

/-- Claim C8: for every message and every secret (including the empty secret),
`verify_signature` accepts the signature produced by `create_signature`; and
every candidate signature (a byte string) that differs from the genuine one in
at least one byte — in particular any single-byte mutation — is rejected. -/
theorem sign_verify_roundtrip (data secret sig : List Nat) :
    verify_signature data secret (create_signature data secret) = true ∧
    ((∀ b ∈ sig, b < 256) → sig ≠ create_signature data secret →
      verify_signature data secret sig = false) := by
  constructor
  · unfold verify_signature
    exact ct_eq_bytes_self _
  · intro hbound hne
    unfold verify_signature
    cases h : ct_eq_bytes (create_signature data secret) sig with
    | false => rfl
    | true =>
      exact absurd (ct_eq_bytes_eq _ _ (hexEncode_lt _) hbound h).symm hne

set_option maxRecDepth 4000 in
set_option maxHeartbeats 1000000 in
/-- Claim C8 witness: concrete message `[97]`, secret `[98]`; the genuine
signature verifies and its single-byte mutation (first byte bumped) fails. -/
theorem sign_verify_roundtrip_witness :
    verify_signature [97] [98] (create_signature [97] [98]) = true ∧
    verify_signature [97] [98]
      ((create_signature [97] [98]).modifyHead (fun b => (b + 1) % 256)) = false :=
  ⟨(sign_verify_roundtrip [97] [98] []).1,
   (sign_verify_roundtrip [97] [98]
      ((create_signature [97] [98]).modifyHead (fun b => (b + 1) % 256))).2
     (by decide) (by decide)⟩

/-- Claim C1 counterexample: with `grace_period = 1`, a transport-level
failure is returned as a successfully parsed outcome with
`authorized = true` ("Offline access granted"), not as the Err branch. -/
theorem network_error_grace_period_counterexample :
    verify_license "lic".data "http://srv".data "sec".data 1 true
        (.transportFailure "connection refused".data)
      = .ok ⟨true, "Offline access granted".data, none, none, none⟩ ∧
    (verify_license "lic".data "http://srv".data "sec".data 1 true
        (.transportFailure "connection refused".data)).isOk = true := by
  constructor <;> rfl

/-- Claim C1 (amended): a transport-level failure of the HTTP request is
returned as the Err branch exactly when `grace_period = 0` (the value the
main loop always passes); when `grace_period > 0` it is returned as a parsed
outcome with `authorized = true` ("offline access granted").  In neither case
is it returned as an unauthorized verdict. -/
theorem network_error_result (lid url sec e : List Char) (gp : Nat) (fc : Bool) :
    (gp = 0 → verify_license lid url sec gp fc (.transportFailure e)
        = .error ("HTTP request failed: ".data ++ e)) ∧
    (gp > 0 → verify_license lid url sec gp fc (.transportFailure e)
        = .ok ⟨true, "Offline access granted".data, none, none, none⟩) ∧
    loopBranchOf (verify_license lid url sec gp fc (.transportFailure e))
      ≠ .unauthorizedBranch := by
  refine ⟨fun h => ?_, fun h => ?_, ?_⟩
  · simp [verify_license, h]
  · simp [verify_license, Nat.pos_iff_ne_zero.mp h, h]
  · by_cases h : gp > 0
    · simp [verify_license, h, loopBranchOf]
    · simp [verify_license, h, loopBranchOf]

/-- Claim C1 witness: the amended statement at `grace_period = 0` and
`grace_period = 5` on a concrete transport failure. -/
theorem network_error_result_witness :
    (verify_license "l".data "u".data "s".data 0 true (.transportFailure "x".data)
        = .error ("HTTP request failed: ".data ++ "x".data)) ∧
    (verify_license "l".data "u".data "s".data 5 true (.transportFailure "x".data)
        = .ok ⟨true, "Offline access granted".data, none, none, none⟩) :=
  ⟨(network_error_result "l".data "u".data "s".data "x".data 0 true).1 rfl,
   (network_error_result "l".data "u".data "s".data "x".data 5 true).2.1 (by decide)⟩

/-- Claim C6: every response with a status other than 200 is returned as a
successfully parsed outcome with `authorized = false` and the generic message
"HTTP error" — not the Err branch — so the caller proceeds to the
unauthorized-failure branch of the loop, never the network-error branch. -/
theorem non200_is_unauthorized (lid url sec : List Char) (gp : Nat) (fc : Bool)
    (status : Nat) (body : Except (List Char) VerifyResponse) (h : status ≠ 200) :
    verify_license lid url sec gp fc (.response status body)
      = .ok ⟨false, "HTTP error".data, none, none, none⟩ ∧
    loopBranchOf (verify_license lid url sec gp fc (.response status body))
      = .unauthorizedBranch := by
  constructor
  · simp [verify_license, h]
  · simp [verify_license, h, loopBranchOf]

/-- Claim C6 witness: a concrete 404 response drives the unauthorized branch. -/
theorem non200_is_unauthorized_witness :
    verify_license "l".data "u".data "s".data 0 true (.response 404 (.error "e".data))
      = .ok ⟨false, "HTTP error".data, none, none, none⟩ ∧
    loopBranchOf (verify_license "l".data "u".data "s".data 0 true
        (.response 404 (.error "e".data))) = .unauthorizedBranch :=
  non200_is_unauthorized "l".data "u".data "s".data 0 true 404 (.error "e".data)
    (by decide)

/-- Trimming trailing slashes leaves a list that ends in the API path
unchanged (its last character is `'y'`). -/
theorem trimEndSlashes_append_apiPath (l : List Char) :
    trimEndSlashes (l ++ apiPath) = l ++ apiPath := by
  have key : (l ++ apiPath).reverse.dropWhile (fun c => c = '/')
      = (l ++ apiPath).reverse := by
    rw [List.reverse_append]
    have h : apiPath.reverse = 'y' :: "firev/1v/ipa/".data := by decide
    rw [h, List.cons_append, List.dropWhile_cons]
    simp
  unfold trimEndSlashes
  rw [key, List.reverse_reverse]

/-- Claim C9 counterexample: for a base URL that already contains the path
suffix twice, the construction keeps it unchanged (it already ends with the
suffix), so the resulting URL contains `/api/v1/verify` twice — the "never
contains the suffix twice" part of the claim fails. -/
theorem buildVerifyUrl_twice_counterexample :
    buildVerifyUrl "http://h/api/v1/verify/api/v1/verify".data
      = "http://h/api/v1/verify/api/v1/verify".data ∧
    countOccurrences apiPath (buildVerifyUrl "http://h/api/v1/verify/api/v1/verify".data)
      = 2 := by
  constructor <;> decide

/-- Claim C9 (amended): the construction trims trailing slashes, keeps a base
already ending in `/api/v1/verify` unchanged and otherwise appends the suffix
exactly once; it is idempotent (applying it to its own output is the
identity).  The output can still contain the suffix twice when the base URL
itself already does — only duplication *by the construction* is excluded. -/
theorem buildVerifyUrl_idempotent (u : List Char) :
    buildVerifyUrl (buildVerifyUrl u) = buildVerifyUrl u ∧
    (apiPath.isSuffixOf (trimEndSlashes u) → buildVerifyUrl u = trimEndSlashes u) ∧
    (¬apiPath.isSuffixOf (trimEndSlashes u) →
      buildVerifyUrl u = trimEndSlashes u ++ apiPath) ∧
    apiPath <:+ buildVerifyUrl u := by
  refine ⟨?_, fun h => ?_, fun h => ?_, ?_⟩
  · by_cases h : apiPath.isSuffixOf (trimEndSlashes u)
    · have h1 : buildVerifyUrl u = trimEndSlashes u := by
        simp [buildVerifyUrl, h]
      obtain ⟨t, ht⟩ : apiPath <:+ trimEndSlashes u := by
        simpa using h
      rw [h1]
      unfold buildVerifyUrl
      rw [← ht, trimEndSlashes_append_apiPath, if_pos (by simp)]
    · have h1 : buildVerifyUrl u = trimEndSlashes u ++ apiPath := by
        simp [buildVerifyUrl, h]
      rw [h1]
      unfold buildVerifyUrl
      rw [trimEndSlashes_append_apiPath, if_pos (by simp)]
  · simp [buildVerifyUrl, h]
  · simp [buildVerifyUrl, h]
  · by_cases h : apiPath.isSuffixOf (trimEndSlashes u)
    · have h1 : buildVerifyUrl u = trimEndSlashes u := by
        simp [buildVerifyUrl, h]
      rw [h1]
      simpa using h
    · have h1 : buildVerifyUrl u = trimEndSlashes u ++ apiPath := by
        simp [buildVerifyUrl, h]
      rw [h1]
      simp

/-- Claim C9 witness: the amended statement evaluated on a base URL with a
trailing slash and no suffix, and on one already carrying the suffix. -/
theorem buildVerifyUrl_idempotent_witness :
    buildVerifyUrl "http://h/".data = "http://h".data ++ apiPath ∧
    buildVerifyUrl "http://h/api/v1/verify".data = "http://h/api/v1/verify".data ∧
    buildVerifyUrl (buildVerifyUrl "http://h/".data) = buildVerifyUrl "http://h/".data ∧
    apiPath <:+ buildVerifyUrl "http://h/".data :=
  ⟨by
    have h := (buildVerifyUrl_idempotent "http://h/".data).2.2.1 (by decide)
    simpa using h,
   by
    have h := (buildVerifyUrl_idempotent "http://h/api/v1/verify".data).2.1 (by decide)
    simpa using h,
   (buildVerifyUrl_idempotent "http://h/".data).1,
   (buildVerifyUrl_idempotent "http://h/".data).2.2.2⟩

/-! ### Claim C5 -/

/-- `update` never touches the supervisor's kill-request flag. -/
theorem healthUpdate_parent (hm : HealthStatus) (now : Int) (b : Bool) :
    (healthUpdate hm now b).parent_requests_kill = hm.parent_requests_kill := by
  unfold healthUpdate
  cases b <;> rfl

/-- `heartbeat` never touches the supervisor's kill-request flag. -/
theorem healthHeartbeat_parent (hm : HealthStatus) :
    (healthHeartbeat hm).parent_requests_kill = hm.parent_requests_kill := rfl

/-- A network-error iteration under an inert health record: no Kill Engine
event, the record stays inert, and the loop exits 1 in single-check mode or
continues with the same interval and kill method. -/
theorem loopIteration_error (s : LoopState) (h : Option HealthStatus) (now : Int)
    (e : List Char) (hinert : healthInert h) :
    (loopIteration s h now (.error e)).events.filter isKillEngineEvent = [] ∧
    healthInert (loopIteration s h now (.error e)).health ∧
    (loopIteration s h now (.error e)).result
      = (if s.runtime_check_interval = 0 then .exited 1
         else .looped ⟨false, s.runtime_check_interval, s.runtime_kill_method⟩) := by
  cases h with
  | none =>
    by_cases hz : s.runtime_check_interval = 0 <;>
      simp [loopIteration, processVerification, hz, healthInert, isKillEngineEvent]
  | some hm =>
    have hkr : isKillRequested (healthHeartbeat hm) = false := by
      simp only [isKillRequested, healthHeartbeat, decide_eq_false_iff_not]
      exact hinert
    by_cases hz : s.runtime_check_interval = 0 <;>
      simp [loopIteration, processVerification, hz, hkr, healthInert,
            isKillEngineEvent, healthUpdate_parent, healthHeartbeat_parent] <;>
      exact hinert

/-- `applyOverrides` on a response with no override fields is the identity on
the policy. -/
theorem applyOverrides_plain (resp : VerifyResponse) (s : LoopState)
    (hiv : resp.check_interval_ms = none) (hkm : resp.kill_method = none) :
    applyOverrides resp s
      = ⟨s.first_check, s.runtime_check_interval, s.runtime_kill_method⟩ := by
  simp only [applyOverrides, hiv, hkm]

/-- An authorized iteration with no overrides under an inert health record:
no Kill Engine event, the record stays inert, and the loop exits 0 in
single-check mode or continues with the same interval and kill method. -/
theorem loopIteration_auth_plain (s : LoopState) (h : Option HealthStatus)
    (now : Int) (resp : VerifyResponse) (hauth : resp.authorized = true)
    (hiv : resp.check_interval_ms = none) (hkm : resp.kill_method = none)
    (hinert : healthInert h) :
    (loopIteration s h now (.ok resp)).events.filter isKillEngineEvent = [] ∧
    healthInert (loopIteration s h now (.ok resp)).health ∧
    (loopIteration s h now (.ok resp)).result
      = (if s.runtime_check_interval = 0 then .exited 0
         else .looped ⟨false, s.runtime_check_interval, s.runtime_kill_method⟩) := by
  have hao := applyOverrides_plain resp s hiv hkm
  cases h with
  | none =>
    by_cases hz : s.runtime_check_interval = 0 <;>
      simp [loopIteration, processVerification, hauth, hao, hz, healthInert,
            isKillEngineEvent]
  | some hm =>
    have hkr : isKillRequested (healthHeartbeat hm) = false := by
      simp only [isKillRequested, healthHeartbeat, decide_eq_false_iff_not]
      exact hinert
    by_cases hz : s.runtime_check_interval = 0 <;>
      simp [loopIteration, processVerification, hauth, hao, hz, hkr, healthInert,
            isKillEngineEvent, healthUpdate_parent, healthHeartbeat_parent] <;>
      exact hinert

/-- Claim C5 counterexample: interval mode (1000 ms) with a verifier
returning two network errors and then `authorized = true` with no overrides.
The Kill Engine is never invoked — but the controller does not exit: after
the authorized iteration it sleeps and keeps looping (exit code `none`), so
"eventually exits 0" fails as stated. -/
theorem loop_network_error_counterexample :
    ((runLoop [.error "connection refused".data, .error "timeout".data,
          .ok ⟨true, "License valid".data, none, none, none⟩]
        ⟨true, 1000, .shred⟩ none 0).1.filter isKillEngineEvent = []) ∧
    ((runLoop [.error "connection refused".data, .error "timeout".data,
          .ok ⟨true, "License valid".data, none, none, none⟩]
        ⟨true, 1000, .shred⟩ none 0).2.2 = none) := by
  constructor <;> rfl

/-- A network-error iteration with a health monitor attached (and no pending
supervisor kill request) records the failure in the Health Channel: the
iteration emits the `update(false)` store, whose effect on the record is to
increment the consecutive-failure counter by one (and set the liveness
flag). -/
theorem loopIteration_error_records (s : LoopState) (hm : HealthStatus)
    (now : Int) (e : List Char) (hpk : hm.parent_requests_kill ≠ 1) :
    LoopEvent.healthUpdated false
      ∈ (loopIteration s (some hm) now (.error e)).events ∧
    (loopIteration s (some hm) now (.error e)).health
      = some (healthUpdate (healthHeartbeat hm) now false) ∧
    (healthUpdate (healthHeartbeat hm) now false).consecutive_failures
      = hm.consecutive_failures + 1 := by
  have hkr : isKillRequested (healthHeartbeat hm) = false := by
    simp only [isKillRequested, healthHeartbeat, decide_eq_false_iff_not]
    exact hpk
  refine ⟨?_, ?_, ?_⟩
  · by_cases hz : s.runtime_check_interval = 0 <;>
      simp [loopIteration, processVerification, hkr, hz]
  · by_cases hz : s.runtime_check_interval = 0 <;>
      simp [loopIteration, processVerification, hkr, hz]
  · simp [healthUpdate, healthHeartbeat]

/-- Driving the loop over any number of network errors followed by any number
of authorized outcomes with no overrides: no Kill Engine event ever appears,
and the exit code is 1 at the first error in single-check mode, 0 at the
authorized outcome in single-check mode with no preceding error, and absent
(still looping) otherwise. -/
theorem runLoop_errs_then_auth (errs : List (List Char)) (k : Nat)
    (resp : VerifyResponse) (hauth : resp.authorized = true)
    (hiv : resp.check_interval_ms = none) (hkm : resp.kill_method = none) :
    ∀ (s : LoopState) (h : Option HealthStatus) (now : Int), healthInert h →
    ((runLoop (errs.map Except.error ++ List.replicate k (Except.ok resp))
        s h now).1.filter isKillEngineEvent = []) ∧
    ((runLoop (errs.map Except.error ++ List.replicate k (Except.ok resp))
        s h now).2.2
      = if s.runtime_check_interval = 0 then
          (if errs = [] then (if k = 0 then none else some 0) else some 1)
        else none) := by
  induction errs with
  | nil =>
    induction k with
    | zero =>
      intro s h now _
      simp [runLoop]
    | succ k ih =>
      intro s h now hinert
      obtain ⟨l1, l2, l3⟩ := loopIteration_auth_plain s h now resp hauth hiv hkm hinert
      rcases hout : loopIteration s h now (.ok resp) with ⟨evs, h2, res⟩
      rw [hout] at l1 l2 l3
      dsimp only at l1 l2 l3
      by_cases hz : s.runtime_check_interval = 0
      · rw [if_pos hz] at l3
        subst l3
        simp only [List.map_nil, List.nil_append, List.replicate_succ, runLoop, hout,
          List.append_eq]
        simp [l1, hz]
      · rw [if_neg hz] at l3
        subst l3
        simp only [List.map_nil, List.nil_append, List.replicate_succ, runLoop, hout,
          List.append_eq]
        have ht := ih ⟨false, s.runtime_check_interval, s.runtime_kill_method⟩ h2 now l2
        simp only [List.map_nil, List.nil_append] at ht
        constructor
        · rw [List.filter_append, l1, ht.1]
          rfl
        · have h2' := ht.2
          simp only at h2'
          rw [h2', if_neg hz, if_neg hz]
  | cons e errs ih =>
    intro s h now hinert
    obtain ⟨l1, l2, l3⟩ := loopIteration_error s h now e hinert
    rcases hout : loopIteration s h now (.error e) with ⟨evs, h2, res⟩
    rw [hout] at l1 l2 l3
    dsimp only at l1 l2 l3
    by_cases hz : s.runtime_check_interval = 0
    · rw [if_pos hz] at l3
      subst l3
      simp only [List.map_cons, List.cons_append, runLoop, hout, List.append_eq]
      simp [l1, hz]
    · rw [if_neg hz] at l3
      subst l3
      simp only [List.map_cons, List.cons_append, runLoop, hout, List.append_eq]
      have ht := ih ⟨false, s.runtime_check_interval, s.runtime_kill_method⟩ h2 now l2
      constructor
      · rw [List.filter_append, l1, ht.1]
        rfl
      · have h2' := ht.2
        simp only at h2'
        rw [h2', if_neg hz, if_neg hz]

/-- Claim C5 (amended): on a network error the controller records a failure
in the Health Channel — whenever a monitor is attached (and the supervisor
has not requested a kill), the error iteration performs the `update(false)`
store, incrementing the consecutive-failure counter by one — and network
errors alone never invoke the Kill Engine.  Over a verifier returning any
number of network errors and then any number of authorized outcomes with no
overrides, under an inert health record, no Kill Engine invocation ever
appears; the controller exits 1 at the first error in single-check mode
(interval 0), exits 0 at the authorized outcome in single-check mode with no
preceding error, and otherwise keeps sleeping and looping without exiting. -/
theorem loop_network_errors_never_kill (errs : List (List Char)) (k : Nat)
    (resp : VerifyResponse) (hauth : resp.authorized = true)
    (hiv : resp.check_interval_ms = none) (hkm : resp.kill_method = none) :
    ∀ (s : LoopState) (h : Option HealthStatus) (now : Int), healthInert h →
    (∀ (hm : HealthStatus) (e : List Char), hm.parent_requests_kill ≠ 1 →
      LoopEvent.healthUpdated false
        ∈ (loopIteration s (some hm) now (.error e)).events ∧
      (loopIteration s (some hm) now (.error e)).health
        = some (healthUpdate (healthHeartbeat hm) now false) ∧
      (healthUpdate (healthHeartbeat hm) now false).consecutive_failures
        = hm.consecutive_failures + 1) ∧
    ((runLoop (errs.map Except.error ++ List.replicate k (Except.ok resp))
        s h now).1.filter isKillEngineEvent = []) ∧
    ((runLoop (errs.map Except.error ++ List.replicate k (Except.ok resp))
        s h now).2.2
      = if s.runtime_check_interval = 0 then
          (if errs = [] then (if k = 0 then none else some 0) else some 1)
        else none) := by
  intro s h now hinert
  exact ⟨fun hm e hpk => loopIteration_error_records s hm now e hpk,
    (runLoop_errs_then_auth errs k resp hauth hiv hkm s h now hinert).1,
    (runLoop_errs_then_auth errs k resp hauth hiv hkm s h now hinert).2⟩

/-- Claim C5 witness: single-check mode, one network error before the
authorized outcome, with a health monitor attached — the failure is recorded
in the Health Channel (counter 0 → 1), the Kill Engine never runs, and the
controller exits 1 at the error. -/
theorem loop_network_errors_never_kill_witness :
    (LoopEvent.healthUpdated false
      ∈ (loopIteration ⟨true, 0, .stop⟩ (some ⟨0, 0, 0, 0, 0⟩) 0
          (.error "boom".data)).events) ∧
    ((healthUpdate (healthHeartbeat ⟨0, 0, 0, 0, 0⟩) 0 false).consecutive_failures
      = (0 : Int) + 1) ∧
    ((runLoop (["boom".data].map Except.error
          ++ List.replicate 1 (Except.ok ⟨true, [], none, none, none⟩))
        ⟨true, 0, .stop⟩ (some ⟨0, 0, 0, 0, 0⟩) 0).1.filter isKillEngineEvent = []) ∧
    ((runLoop (["boom".data].map Except.error
          ++ List.replicate 1 (Except.ok ⟨true, [], none, none, none⟩))
        ⟨true, 0, .stop⟩ (some ⟨0, 0, 0, 0, 0⟩) 0).2.2
      = if (⟨true, 0, .stop⟩ : LoopState).runtime_check_interval = 0 then
          (if (["boom".data] : List (List Char)) = [] then
            (if (1 : Nat) = 0 then none else some 0) else some 1)
        else none) :=
  have h := loop_network_errors_never_kill ["boom".data] 1 ⟨true, [], none, none, none⟩
    rfl rfl rfl ⟨true, 0, .stop⟩ (some ⟨0, 0, 0, 0, 0⟩) 0 (by simp [healthInert])
  ⟨(h.1 ⟨0, 0, 0, 0, 0⟩ "boom".data (by decide)).1,
   (h.1 ⟨0, 0, 0, 0, 0⟩ "boom".data (by decide)).2.2,
   h.2.1, h.2.2⟩

/-! ### Claims C7 and C10 -/

/-- The interval override takes effect inside `applyOverrides`. -/
theorem applyOverrides_interval (resp : VerifyResponse) (s : LoopState) (v : Nat)
    (hov : resp.check_interval_ms = some v) :
    (applyOverrides resp s).runtime_check_interval = v := by
  unfold applyOverrides
  rw [hov]
  by_cases hvv : v = s.runtime_check_interval
  · simp [hvv]
  · simp [hvv]

/-- Claim C7: when an authorized outcome carries an interval override
`v ≠ 0`, the runtime policy is updated before the sleep that follows that
same outcome — the iteration's final event is a sleep of `v` milliseconds
(not of the prior interval), and the state the loop continues with carries
interval `v`. -/
theorem interval_override_before_sleep (s : LoopState) (h : Option HealthStatus)
    (now : Int) (resp : VerifyResponse) (v : Nat) (hauth : resp.authorized = true)
    (hov : resp.check_interval_ms = some v) (hv : v ≠ 0) (hinert : healthInert h) :
    (loopIteration s h now (.ok resp)).events.getLast? = some (.slept v) ∧
    ∀ s', (loopIteration s h now (.ok resp)).result = .looped s' →
      s'.runtime_check_interval = v := by
  have hai := applyOverrides_interval resp s v hov
  cases h with
  | none =>
    constructor
    · simp [loopIteration, processVerification, hauth, hai, hv]
    · intro s' hs'
      simp [loopIteration, processVerification, hauth, hai, hv] at hs'
      rw [← hs']
  | some hm =>
    have hkr : isKillRequested (healthHeartbeat hm) = false := by
      simp [isKillRequested, healthHeartbeat]
      exact hinert
    constructor
    · simp [loopIteration, processVerification, hkr, hauth, hai, hv]
    · intro s' hs'
      simp [loopIteration, processVerification, hkr, hauth, hai, hv] at hs'
      rw [← hs']

/-- Claim C7 witness: prior interval 1000 ms, override 5000 ms — the next
sleep lasts 5000 ms and the continuing state carries 5000. -/
theorem interval_override_before_sleep_witness :
    (loopIteration ⟨true, 1000, .shred⟩ none 0
        (.ok ⟨true, [], none, some 5000, none⟩)).events.getLast?
      = some (.slept 5000) :=
  (interval_override_before_sleep ⟨true, 1000, .shred⟩ none 0
      ⟨true, [], none, some 5000, none⟩ 5000 rfl rfl (by decide) trivial).1

/-- Claim C10: an authorized outcome carrying a `kill_method` string that
`KillMethod::from_str` does not recognize (not one of stop/delete/shred,
case-insensitively) leaves the runtime kill method unchanged, and the whole
iteration is identical to one whose response carries no `kill_method` at
all. -/
theorem invalid_kill_method_noop (s : LoopState) (h : Option HealthStatus)
    (now : Int) (resp : VerifyResponse) (str : List Char)
    (hkm : resp.kill_method = some str) (hnone : KillMethod.from_str str = none) :
    (applyOverrides resp s).runtime_kill_method = s.runtime_kill_method ∧
    applyOverrides resp s
      = applyOverrides
          ⟨resp.authorized, resp.message, resp.expires_in, resp.check_interval_ms, none⟩ s ∧
    loopIteration s h now (.ok resp)
      = loopIteration s h now
          (.ok ⟨resp.authorized, resp.message, resp.expires_in, resp.check_interval_ms, none⟩) ∧
    (KillMethod.from_str str = none ↔
      toLowercase str ∉ ["stop".data, "delete".data, "shred".data]) := by
  have hao : applyOverrides resp s
      = applyOverrides
          ⟨resp.authorized, resp.message, resp.expires_in, resp.check_interval_ms, none⟩ s := by
    simp only [applyOverrides, hkm, hnone]
  refine ⟨?_, hao, ?_, ?_⟩
  · simp only [applyOverrides, hkm, hnone]
  · cases h with
    | none =>
      simp only [loopIteration, processVerification, hao]
    | some hm =>
      simp only [loopIteration, processVerification, hao]
  · unfold KillMethod.from_str
    constructor
    · intro hn hmem
      simp only [List.mem_cons, List.not_mem_nil, or_false] at hmem
      rcases hmem with h1 | h1 | h1 <;> simp [h1] at hn
    · intro hmem
      simp only [List.mem_cons, List.not_mem_nil, or_false, not_or] at hmem
      obtain ⟨h1, h2, h3⟩ := hmem
      simp [h1, h2, h3]

/-- Claim C10 witness: the unrecognized override "fast" leaves the kill
method `stop` in place. -/
theorem invalid_kill_method_noop_witness :
    (applyOverrides ⟨true, [], none, none, some "fast".data⟩
        ⟨true, 0, .stop⟩).runtime_kill_method = KillMethod.stop :=
  (invalid_kill_method_noop ⟨true, 0, .stop⟩ none 0
      ⟨true, [], none, none, some "fast".data⟩ "fast".data rfl (by decide)).1

/-- For Delete and Shred (resolved target), the trace starts with the full
stop sequence followed by the 200 ms settle delay, whatever faults occur. -/
theorem kill_trace_shape (w : KillWorld) (m : KillMethod)
    (hm : m = .delete ∨ m = .shred) (ppid : Nat) (path : List Char)
    (hp : w.parent_pid = some ppid) (hpath : w.parent_binary_path = some path) :
    ∃ rest, (execute_kill w m).1
      = [KEvent.sigterm ppid, .sleptMs 100,
         .checkedAlive ppid w.env.alive_after_sigterm]
        ++ (if w.env.alive_after_sigterm then [KEvent.sigkill ppid] else [])
        ++ .sleptMs 200 :: rest := by
  rcases hm with hm | hm <;> subst hm
  · refine ⟨[.unlinked path], ?_⟩
    cases hro : w.env.remove_ok <;>
      simp [execute_kill, hp, hpath, delete_parent, stop_parent, hro,
            List.append_assoc]
  · cases hoo : w.env.open_ok
    · refine ⟨[], ?_⟩
      simp [execute_kill, hp, hpath, shred_parent, stop_parent, hoo,
            List.append_assoc]
    · cases hmo : w.env.metadata_ok
      · refine ⟨[.openedForWrite path], ?_⟩
        simp [execute_kill, hp, hpath, shred_parent, stop_parent, hoo, hmo,
              List.append_assoc]
      · rcases hps : shredPasses w.env path [(0, 0x00), (1, 0xFF), (2, 0xAA)]
          with ⟨pevs, pres⟩
        cases pres with
        | error e =>
          refine ⟨.openedForWrite path :: pevs, ?_⟩
          simp only [execute_kill, hp, hpath, shred_parent, stop_parent,
                     hoo, hmo, hps]
          simp [List.append_assoc]
        | ok u =>
          refine ⟨.openedForWrite path :: pevs ++ [.unlinked path], ?_⟩
          cases hro : w.env.remove_ok <;>
          · simp only [execute_kill, hp, hpath, shred_parent, stop_parent,
                       hoo, hmo, hps, hro]
            simp [List.append_assoc]

/-- Claim C2: for Delete and Shred on a resolved kill target, every file
mutation (overwrite pass or unlink) is strictly preceded in the trace by the
graceful SIGTERM, by the SIGKILL escalation whenever the liveness re-check
found the target still alive, and by the 200 ms settle delay — no file
mutation is ever observed before the target's termination sequence has
completed. -/
theorem kill_terminates_before_mutation (w : KillWorld) (m : KillMethod)
    (hm : m = .delete ∨ m = .shred) (ppid : Nat) (path : List Char)
    (hp : w.parent_pid = some ppid) (hpath : w.parent_binary_path = some path) :
    ∀ (i : Nat) (e : KEvent),
      (execute_kill w m).1[i]? = some e → isFileMutationEvent e = true →
      (∃ j : Nat, j < i ∧ (execute_kill w m).1[j]? = some (KEvent.sigterm ppid)) ∧
      (w.env.alive_after_sigterm = true →
        ∃ j : Nat, j < i ∧ (execute_kill w m).1[j]? = some (KEvent.sigkill ppid)) ∧
      (∃ j : Nat, j < i ∧ (execute_kill w m).1[j]? = some (KEvent.sleptMs 200)) := by
  obtain ⟨rest, hshape⟩ := kill_trace_shape w m hm ppid path hp hpath
  intro i e he hmut
  cases halive : w.env.alive_after_sigterm
  · rw [halive] at hshape
    simp only [if_neg (by simp : ¬(false = true))] at hshape
    have htr : (execute_kill w m).1
        = KEvent.sigterm ppid :: .sleptMs 100 :: .checkedAlive ppid false
          :: .sleptMs 200 :: rest := by
      simpa using hshape
    have h4 : 4 ≤ i := by
      by_contra hlt
      push_neg at hlt
      rw [htr] at he
      interval_cases i <;>
        simp only [List.getElem?_cons_zero, List.getElem?_cons_succ,
          Option.some.injEq] at he <;>
        subst he <;> simp [isFileMutationEvent] at hmut
    refine ⟨⟨0, by omega, by rw [htr]; simp⟩, fun hc => absurd hc (by simp [halive]),
      ⟨3, by omega, by rw [htr]; simp⟩⟩
  · rw [halive] at hshape
    simp only [if_pos rfl] at hshape
    have htr : (execute_kill w m).1
        = KEvent.sigterm ppid :: .sleptMs 100 :: .checkedAlive ppid true
          :: .sigkill ppid :: .sleptMs 200 :: rest := by
      simpa using hshape
    have h5 : 5 ≤ i := by
      by_contra hlt
      push_neg at hlt
      rw [htr] at he
      interval_cases i <;>
        simp only [List.getElem?_cons_zero, List.getElem?_cons_succ,
          Option.some.injEq] at he <;>
        subst he <;> simp [isFileMutationEvent] at hmut
    exact ⟨⟨0, by omega, by rw [htr]; simp⟩,
           fun _ => ⟨3, by omega, by rw [htr]; simp⟩,
           ⟨4, by omega, by rw [htr]; simp⟩⟩

/-- Claim C2 witness: a concrete Delete run with the target still alive after
SIGTERM; the file unlink (trace index 5) is preceded by SIGTERM, by the
SIGKILL escalation and by the settle delay. -/
theorem kill_terminates_before_mutation_witness :
    (∃ j : Nat, j < 5 ∧ (execute_kill sampleKillWorld .delete).1[j]?
        = some (KEvent.sigterm 7)) ∧
    (sampleKillWorld.env.alive_after_sigterm = true →
      ∃ j : Nat, j < 5 ∧ (execute_kill sampleKillWorld .delete).1[j]?
        = some (KEvent.sigkill 7)) ∧
    (∃ j : Nat, j < 5 ∧ (execute_kill sampleKillWorld .delete).1[j]?
        = some (KEvent.sleptMs 200)) :=
  kill_terminates_before_mutation sampleKillWorld .delete (Or.inl rfl) 7 "p".data
    rfl rfl 5 (KEvent.unlinked "p".data) (by decide) (by decide)

/-- Claim C3 counterexample: a kill target that is already gone does NOT
degrade to a logged no-op.  With the binary path unresolvable, `execute_kill`
exits fatally with code 1 (here under method Stop); with the path resolved
but the unlink failing (file already absent), Delete also exits fatally with
code 1. -/
theorem kill_target_gone_counterexample :
    (execute_kill ⟨some 7, none, sampleKillEnv⟩ .stop).2 = .fatalExit 1 ∧
    (execute_kill ⟨some 7, some "p".data, noRemoveKillEnv⟩ .delete).2
      = .fatalExit 1 := by
  constructor <;> rfl

/-- Claim C3 (amended): "target already gone" is treated as fatal, not as a
no-op.  An unresolvable parent PID exits 1; an unresolvable binary path still
attempts to stop the process but exits 1 for every method; a failing unlink
(file absent) makes Delete and Shred exit 1 — for Delete the unlink is still
attempted before the fatal exit.  Only Stop — which touches no file —
completes normally on a resolved target. -/
theorem kill_target_gone_fatal (w : KillWorld) (m : KillMethod) :
    (w.parent_pid = none → execute_kill w m = ([], .fatalExit 1)) ∧
    (∀ ppid, w.parent_pid = some ppid → w.parent_binary_path = none →
      execute_kill w m = ((stop_parent w.env ppid).1, .fatalExit 1)) ∧
    (∀ ppid path, w.parent_pid = some ppid → w.parent_binary_path = some path →
      (m = .delete ∨ m = .shred) → w.env.remove_ok = false →
      (execute_kill w m).2 = .fatalExit 1 ∧
      (m = .delete → KEvent.unlinked path ∈ (execute_kill w m).1)) ∧
    (∀ ppid path, w.parent_pid = some ppid → w.parent_binary_path = some path →
      (execute_kill w .stop).2 = .completed) := by
  refine ⟨fun h => ?_, fun ppid h1 h2 => ?_, fun ppid path h1 h2 hm hro => ?_,
    fun ppid path h1 h2 => ?_⟩
  · simp [execute_kill, h]
  · simp [execute_kill, h1, h2]
  · rcases hm with hm | hm <;> subst hm
    · constructor
      · simp [execute_kill, h1, h2, delete_parent, stop_parent, hro]
      · intro _
        cases hal : w.env.alive_after_sigterm <;>
          simp [execute_kill, h1, h2, delete_parent, stop_parent, hro, hal]
    · refine ⟨?_, fun hd => by simp at hd⟩
      cases hoo : w.env.open_ok
      · simp [execute_kill, h1, h2, shred_parent, stop_parent, hoo]
      · cases hmo : w.env.metadata_ok
        · simp [execute_kill, h1, h2, shred_parent, stop_parent, hoo, hmo]
        · rcases hps : shredPasses w.env path [(0, 0x00), (1, 0xFF), (2, 0xAA)]
            with ⟨pevs, pres⟩
          cases pres with
          | error e =>
            simp only [execute_kill, h1, h2, shred_parent, stop_parent,
                       hoo, hmo, hps]
            rfl
          | ok u =>
            simp only [execute_kill, h1, h2, shred_parent, stop_parent,
                       hoo, hmo, hps, hro]
            rfl
  · simp [execute_kill, h1, h2, stop_parent]

/-- Claim C3 witness: the amended statement on concrete worlds — missing
PID, missing path, failing unlink (with the unlink still attempted by
Delete), and a plain Stop completing. -/
theorem kill_target_gone_fatal_witness :
    (execute_kill ⟨none, none, sampleKillEnv⟩ .stop = ([], .fatalExit 1)) ∧
    (execute_kill ⟨some 7, none, sampleKillEnv⟩ .shred
      = ((stop_parent sampleKillEnv 7).1, .fatalExit 1)) ∧
    ((execute_kill ⟨some 7, some "p".data, noRemoveKillEnv⟩ .delete).2
      = .fatalExit 1) ∧
    (KEvent.unlinked "p".data
      ∈ (execute_kill ⟨some 7, some "p".data, noRemoveKillEnv⟩ .delete).1) ∧
    ((execute_kill ⟨some 7, some "p".data, sampleKillEnv⟩ .stop).2
      = .completed) :=
  ⟨(kill_target_gone_fatal ⟨none, none, sampleKillEnv⟩ .stop).1 rfl,
   (kill_target_gone_fatal ⟨some 7, none, sampleKillEnv⟩ .shred).2.1 7 rfl rfl,
   ((kill_target_gone_fatal ⟨some 7, some "p".data, noRemoveKillEnv⟩
      .delete).2.2.1 7 "p".data rfl rfl (Or.inl rfl) rfl).1,
   ((kill_target_gone_fatal ⟨some 7, some "p".data, noRemoveKillEnv⟩
      .delete).2.2.1 7 "p".data rfl rfl (Or.inl rfl) rfl).2 rfl,
   (kill_target_gone_fatal ⟨some 7, some "p".data, sampleKillEnv⟩
      .stop).2.2.2 7 "p".data rfl rfl⟩

/-- Claim C4: in both secure-deletion primitives, the unlink is attempted
unconditionally after the overwrite loop — an open failure or any per-pass
seek/write/flush failure never prevents the removal attempt — and whenever
the removal itself goes through, the path no longer exists afterwards,
whatever overwrite faults occurred. -/
theorem secure_delete_unlink_unconditional (env : DestructEnv)
    (fs : List (List Char)) (path : List Char) (hnd : fs.Nodup)
    (hmem : path ∈ fs) :
    DEvent.removeAttempted path ∈ (secure_delete_file env fs path).1 ∧
    (env.remove_ok = true → path ∉ (secure_delete_file env fs path).2) ∧
    DEvent.removeAttempted path ∈ (secure_delete_self env fs path).1 ∧
    (env.remove_ok = true → path ∉ (secure_delete_self env fs path).2.1) := by
  refine ⟨?_, fun hro => ?_, ?_, fun hro => ?_⟩
  · simp [secure_delete_file, hmem]
  · simp only [secure_delete_file, if_pos hmem, hro, if_true]
    exact hnd.not_mem_erase
  · simp [secure_delete_self, hmem]
  · simp only [secure_delete_self, if_pos hmem, hro, if_true]
    cases hrc : env.remove_config_ok
    · simp only [Bool.false_eq_true, if_false]
      exact hnd.not_mem_erase
    · simp only [if_true]
      intro hcontra
      exact hnd.not_mem_erase (List.mem_of_mem_erase hcontra)

/-- Claim C4 witness: a file system containing just "target"; with the open
failing and every pass faulted, the unlink is still attempted and the file is
gone afterwards. -/
theorem secure_delete_unlink_unconditional_witness :
    DEvent.removeAttempted "target".data
      ∈ (secure_delete_file
          ⟨false, fun _ => false, fun _ => false, fun _ => false, true, true⟩
          ["target".data] "target".data).1 ∧
    "target".data
      ∉ (secure_delete_file
          ⟨false, fun _ => false, fun _ => false, fun _ => false, true, true⟩
          ["target".data] "target".data).2 :=
  ⟨(secure_delete_unlink_unconditional
      ⟨false, fun _ => false, fun _ => false, fun _ => false, true, true⟩
      ["target".data] "target".data (by simp) (by simp)).1,
   (secure_delete_unlink_unconditional
      ⟨false, fun _ => false, fun _ => false, fun _ => false, true, true⟩
      ["target".data] "target".data (by simp) (by simp)).2.1 rfl⟩

end Killer
